import Mathlib

/-!
Verification development for the hathor-core node (Python sources under
`src/hathor/`).  The definitions below are a shallow embedding of the code in
`src/hathor/p2p/manager.py`, `src/hathor/transaction/genesis.py` and
`src/hathor/transaction/transaction_metadata.py`:

* byte strings (hashes, peer ids, scripts) are `List Nat`;
* Python floats (vertex weights) are embedded as exact rationals `ℚ`, except
  in `calculate_block_difficulty` where the source computes logarithms and the
  embedding works over `ℝ`;
* code that can raise an exception is embedded with `Option` (`none` = raised);
* methods of collaborator classes that are not part of the repository sources
  (`TransactionMemoryStorage` tip queries, `BaseTransaction.verify`) are either
  taken as opaque function parameters or modelled from the spec, as flagged in
  their doc comments.
-/

/-- Node state enumeration, `HathorManager.NodeState` (manager.py lines 38-42). -/
inductive NodeState where
  | INITIALIZING
  | WAITING_FOR_PEERS
  | SYNCING
  | SYNCED
deriving DecidableEq, Repr

/-- Embedding of `hathor.transaction.TxOutput`: an output value and its script. -/
structure TxOutput where
  value : ℕ
  script : List Nat
deriving DecidableEq, Repr

/-- Shallow embedding of a DAG vertex (a `Block` or a `Transaction`).  Only the
fields `manager.py` reads are kept.  `is_genesis` embeds the source's
`BaseTransaction.is_genesis` property (hash equals one of the three genesis
hashes); `is_block` distinguishes `Block` from `Transaction`. -/
structure Vertex where
  hash : List Nat
  parents : List (List Nat)
  weight : ℚ
  timestamp : ℤ
  height : ℕ
  outputs : List TxOutput
  is_block : Bool
  is_genesis : Bool
deriving DecidableEq, Repr, Inhabited

/-- Embedding of `BaseTransaction.sum_outputs`: the total value of the outputs. -/
def Vertex.sum_outputs (v : Vertex) : ℕ := (v.outputs.map TxOutput.value).sum

/-- A peer record (`hathor.p2p.peer_id.PeerId`): its id and its entrypoints
(dial strings, kept as opaque byte lists). -/
structure Peer where
  id : List Nat
  entrypoints : List (List Nat)
deriving DecidableEq, Repr

/-- Embedding of the `HathorManager` state (manager.py `__init__`, lines 74-114,
and `doStart`).  `tx_storage` holds the saved vertices in insertion order;
`storage_cache` holds the vertices passed to `tx_storage._add_to_cache` during
initialization; `connected_peers` holds the ids of the peers that are connected
and ready; the numeric fields mirror the attributes set in `__init__`. -/
structure HathorManager where
  state : NodeState
  tx_storage : List Vertex
  storage_cache : List Vertex
  latest_blocks : List Vertex
  blocks_per_difficulty : ℕ
  avg_time_between_blocks : ℕ
  min_block_weight : ℚ
  block_weight : ℚ
  max_allowed_block_weight_change : ℚ
  tokens_issued_per_block : ℕ
  connected_peers : List (List Nat)
  peer_storage : List Peer
  my_peer : Peer
deriving DecidableEq

/-- Embedding of `TransactionStorage.transaction_exists_by_hash_bytes`: whether
some stored vertex has the given hash. -/
def transaction_exists_by_hash_bytes (storage : List Vertex) (h : List Nat) : Bool :=
  storage.any (fun v => decide (v.hash = h))

/-- Embedding of `HathorManager.validate_new_tx` (manager.py lines 220-260).
`verify` is an opaque parameter standing for `tx.verify()`, whose implementation
(`BaseTransaction.verify`) is not part of the repository sources; the embedding
holds for every such function.  Mirrored control flow:

* outside `INITIALIZING`, genesis vertices and already-stored hashes are
  rejected (lines 224-231);
* a vertex with a parent hash missing from storage is rejected (lines 233-239);
* a vertex whose `verify()` raises is rejected (lines 241-245);
* a block whose weight is below `self.block_weight` is rejected (lines 247-252);
* a block whose `sum_outputs` differs from `tokens_issued_per_block` only
  triggers a `print` in the source (lines 253-259): there is no `return False`
  on that branch, so the function falls through and returns `True`.  The
  embedding reproduces that fall-through. -/
def validate_new_tx (verify : Vertex → Bool) (m : HathorManager) (tx : Vertex) : Bool :=
  if m.state ≠ NodeState.INITIALIZING ∧ tx.is_genesis = true then false
  else if m.state ≠ NodeState.INITIALIZING ∧
      transaction_exists_by_hash_bytes m.tx_storage tx.hash = true then false
  else if tx.parents.any (fun p => ! transaction_exists_by_hash_bytes m.tx_storage p) then false
  else if verify tx = false then false
  else if tx.is_block = true ∧ tx.weight < m.block_weight then false
  else true

/-- Embedding of `TransactionStorage.get_block_count`.  Modelled from the spec:
the storage contract (spec section 4.2) exposes `block_count()`; the storage
implementation is not part of the repository sources, so it is modelled as the
number of blocks held in storage. -/
def get_block_count (storage : List Vertex) : ℕ :=
  (storage.filter (fun v => v.is_block)).length

/-- Embedding of the `while len(self.latest_blocks) > self.blocks_per_difficulty:
popleft()` loop of `on_new_tx` (manager.py lines 280-281): drop elements from the
front until at most `n` remain. -/
def trimLatest (l : List Vertex) (n : ℕ) : List Vertex :=
  l.drop (l.length - n)

/-- Embedding of `HathorManager.on_new_tx` (manager.py lines 262-296).
`verify` is the opaque `tx.verify()` parameter passed on to `validate_new_tx`.
`retarget` stands for the value `calculate_block_difficulty` assigns to
`self.block_weight` on a retarget boundary: the source computes it with
floating-point logarithms, which the computable part of the embedding cannot
evaluate, so the assigned value is an opaque function of the manager state; the
retarget formula itself is embedded separately as `calculate_block_difficulty`.
Mirrored behaviour: an invalid vertex is discarded; during `INITIALIZING` the
vertex goes to `_add_to_cache`, otherwise it is saved with `save_transaction`;
a block is appended to `latest_blocks` (trimmed to the window size) and every
`blocks_per_difficulty`-th block triggers the difficulty adjustment.  The calls
to `wallet.on_new_tx` and `node_sync_manager.on_new_tx` touch collaborator
objects outside the manager state and have no effect on the fields modelled
here. -/
def on_new_tx (verify : Vertex → Bool) (retarget : HathorManager → ℚ)
    (m : HathorManager) (tx : Vertex) : HathorManager :=
  if validate_new_tx verify m tx = false then m
  else
    let m1 := if m.state = NodeState.INITIALIZING
      then { m with storage_cache := m.storage_cache ++ [tx] }
      else { m with tx_storage := m.tx_storage ++ [tx] }
    if tx.is_block = true then
      let m2 := { m1 with
        latest_blocks := trimLatest (m1.latest_blocks ++ [tx]) m1.blocks_per_difficulty }
      if get_block_count m2.tx_storage % m2.blocks_per_difficulty = 0 then
        { m2 with block_weight := retarget m2 }
      else m2
    else m1

/-- Embedding of `HathorManager.propagate_tx` (manager.py lines 174-186): the
vertex is handed to `on_new_tx`, and afterwards, only when the node state is
`SYNCED`, it is sent to every connected peer.  The result pairs the updated
manager with the ids of the peers the vertex was sent to. -/
def propagate_tx (verify : Vertex → Bool) (retarget : HathorManager → ℚ)
    (m : HathorManager) (tx : Vertex) : HathorManager × List (List Nat) :=
  let m1 := on_new_tx verify retarget m tx
  if m1.state = NodeState.SYNCED then (m1, m1.connected_peers) else (m1, [])

example : transaction_exists_by_hash_bytes [] [1, 2] = false := by decide

example :
    validate_new_tx (fun _ => true)
      { state := NodeState.WAITING_FOR_PEERS, tx_storage := [], storage_cache := [],
        latest_blocks := [], blocks_per_difficulty := 5, avg_time_between_blocks := 64,
        min_block_weight := 10, block_weight := 10, max_allowed_block_weight_change := 2,
        tokens_issued_per_block := 10000, connected_peers := [], peer_storage := [],
        my_peer := { id := [7], entrypoints := [] } }
      { hash := [1], parents := [[9]], weight := 10, timestamp := 0, height := 1,
        outputs := [], is_block := false, is_genesis := false } = false := by decide

/-- Value of `hathor.constants.GENESIS_TOKENS`.  Modelled from the spec:
`hathor/constants.py` is not among the repository sources; `genesis.py` notes
the genesis holds 2B tokens stored with two decimal places. -/
def GENESIS_TOKENS : ℕ := 200000000000

/-- Value of `hathor.constants.MIN_BLOCK_WEIGHT`.  Modelled from the spec:
`hathor/constants.py` is not among the repository sources; the spec gives
`min_block_weight` default 10, matching `HathorManager.__init__`. -/
def MIN_BLOCK_WEIGHT : ℚ := 10

/-- Value of `hathor.constants.MIN_TX_WEIGHT`.  Modelled from the spec:
`hathor/constants.py` is not among the repository sources and the spec does not
name the constant; no claim below depends on its value. -/
def MIN_TX_WEIGHT : ℚ := 10

/-- Hash of the genesis block (genesis.py line 32). -/
def GENESIS_BLOCK_HASH : List Nat :=
  [0, 2, 237, 36, 96, 188, 220, 216, 4, 178, 254, 4, 236, 146, 229, 52,
   71, 239, 227, 147, 177, 20, 50, 212, 209, 207, 104, 188, 5, 96, 107, 103]

/-- Hash of the first genesis transaction (genesis.py line 10). -/
def TX_GENESIS1_HASH : List Nat :=
  [0, 1, 42, 29, 244, 26, 175, 29, 218, 5, 148, 44, 82, 47, 244, 245,
   111, 220, 165, 22, 1, 147, 224, 17, 30, 248, 78, 71, 77, 41, 70, 3]

/-- Hash of the second genesis transaction (genesis.py line 19). -/
def TX_GENESIS2_HASH : List Nat :=
  [0, 0, 45, 212, 248, 103, 191, 177, 203, 167, 92, 96, 115, 70, 155, 247,
   111, 170, 58, 255, 36, 207, 128, 251, 0, 110, 216, 72, 236, 119, 19, 115]

/-- Script of the single genesis output (genesis.py line 29). -/
def GENESIS_OUTPUT_SCRIPT : List Nat :=
  [118, 169, 20, 253, 5, 5, 155, 96, 6, 36, 149, 67, 184, 47, 54, 135,
   106, 23, 199, 63, 210, 38, 123, 136, 172]

/-- Embedding of the genesis block `BLOCK_GENESIS` (genesis.py lines 31-39):
height 1, timestamp 1539271481, a single output of `GENESIS_TOKENS`, and no
parents. -/
def BLOCK_GENESIS : Vertex :=
  { hash := GENESIS_BLOCK_HASH, parents := [], weight := MIN_BLOCK_WEIGHT,
    timestamp := 1539271481, height := 1,
    outputs := [{ value := GENESIS_TOKENS, script := GENESIS_OUTPUT_SCRIPT }],
    is_block := true, is_genesis := true }

/-- Embedding of the genesis transaction `TX_GENESIS1` (genesis.py lines 9-16). -/
def TX_GENESIS1 : Vertex :=
  { hash := TX_GENESIS1_HASH, parents := [], weight := MIN_TX_WEIGHT,
    timestamp := 1539271482, height := 1, outputs := [],
    is_block := false, is_genesis := true }

/-- Embedding of the genesis transaction `TX_GENESIS2` (genesis.py lines 18-25). -/
def TX_GENESIS2 : Vertex :=
  { hash := TX_GENESIS2_HASH, parents := [], weight := MIN_TX_WEIGHT,
    timestamp := 1539271483, height := 1, outputs := [],
    is_block := false, is_genesis := true }

/-- Embedding of `genesis_transactions` (genesis.py lines 8-40), in the order the
source returns them. -/
def genesis_transactions : List Vertex := [BLOCK_GENESIS, TX_GENESIS1, TX_GENESIS2]

/-- Whether some stored vertex that is a block lists `v` among its parents. -/
def has_block_child (storage : List Vertex) (v : Vertex) : Bool :=
  storage.any (fun u => u.is_block && decide (v.hash ∈ u.parents))

/-- Embedding of `TransactionStorage.get_tip_blocks_hashes`.  Modelled from the
spec: the storage implementation is not among the repository sources; the spec
storage contract (section 4.2) defines `tip_blocks()` as the hashes of the
stored blocks that have no block children. -/
def get_tip_blocks_hashes (storage : List Vertex) : List (List Nat) :=
  (storage.filter (fun v => v.is_block && ! has_block_child storage v)).map Vertex.hash

/-- Whether some stored non-void vertex lists `v` among its parents.  `voided`
says which hashes are currently void. -/
def has_nonvoid_child (storage : List Vertex) (voided : List Nat → Bool) (v : Vertex) : Bool :=
  storage.any (fun u => ! voided u.hash && decide (v.hash ∈ u.parents))

/-- The stored tip transactions, before the count cap.  Modelled from the spec:
the storage implementation is not among the repository sources; the spec storage
contract (section 4.2) defines `tip_transactions(k)` over the non-void
transactions with no non-void children. -/
def tip_transactions_all (storage : List Vertex) (voided : List Nat → Bool) : List Vertex :=
  storage.filter (fun v => ! v.is_block && ! voided v.hash && ! has_nonvoid_child storage voided v)

/-- Embedding of `TransactionStorage.get_tip_transactions(count)`.  Modelled from
the spec: up to `count` of the tip transactions (section 4.2). -/
def get_tip_transactions (storage : List Vertex) (voided : List Nat → Bool) (count : ℕ) :
    List Vertex :=
  (tip_transactions_all storage voided).take count

/-- Embedding of `HathorManager.get_new_tx_parents` (manager.py lines 188-199):
the hashes of up to two tip transactions; when exactly one tip exists, one of
its parents is appended (`random.choice(tips[0].parents)`, embedded as the
parent at index `choice % length`; `none` embeds the `IndexError` `random.choice`
raises on an empty parent list). -/
def get_new_tx_parents (storage : List Vertex) (voided : List Nat → Bool) (choice : ℕ) :
    Option (List (List Nat)) :=
  let tips := get_tip_transactions storage voided 2
  let ret := tips.map Vertex.hash
  if tips.length = 1 then
    let t := tips.headD default
    if t.parents = [] then none
    else some (ret ++ [t.parents.getD (choice % t.parents.length) []])
  else some ret

/-- Embedding of `TransactionStorage.get_transaction_by_hash_bytes`: the first
stored vertex with the given hash (`none` embeds `TransactionDoesNotExist`). -/
def get_transaction_by_hash_bytes (storage : List Vertex) (h : List Nat) : Option Vertex :=
  storage.find? (fun v => decide (v.hash = h))

/-- Embedding of `HathorManager.generate_mining_block` (manager.py lines
201-215): one output of `tokens_issued_per_block` to the wallet address, parents
are the block tips followed by the new-transaction parents, height is one more
than the maximal parent height, weight is the manager's current `block_weight`.
`address` stands for `wallet.get_unused_address_bytes()` and `now` for the
timestamp the `Block` constructor assigns; `voided` and `choice` are passed to
the tip queries as above.  `none` embeds an exception from the tip queries, a
failed parent lookup, or `max()` over an empty sequence. -/
def generate_mining_block (m : HathorManager) (voided : List Nat → Bool) (choice : ℕ)
    (address : List Nat) (now : ℤ) : Option Vertex := do
  let amount := m.tokens_issued_per_block
  let tx_outputs := [({ value := amount, script := address } : TxOutput)]
  let tip_blocks := get_tip_blocks_hashes m.tx_storage
  let tip_txs ← get_new_tx_parents m.tx_storage voided choice
  let parents := tip_blocks ++ tip_txs
  let parents_tx ← parents.mapM (get_transaction_by_hash_bytes m.tx_storage)
  match (parents_tx.map Vertex.height).max? with
  | none => none
  | some mx =>
      some { hash := [], parents := parents, weight := m.block_weight, timestamp := now,
             height := mx + 1, outputs := tx_outputs, is_block := true, is_genesis := false }

/-- Embedding of `HathorManager.calculate_block_difficulty` (manager.py lines
309-334) over the reals (the source computes with Python floats).  Reads the
window `latest_blocks`; `dt` is the timestamp spread, forced to 1 when
non-positive; the weight delta is the base-2 log formula clipped to
`max_allowed_block_weight_change`; the new weight is floored at
`min_block_weight`.  Returns `(avg_dt, new_weight)` as the source does. -/
noncomputable def calculate_block_difficulty (m : HathorManager) : ℝ × ℝ :=
  let blocks := m.latest_blocks
  let dt0 : ℤ := (blocks.getLastD default).timestamp - (blocks.headD default).timestamp
  let dt : ℤ := if dt0 ≤ 0 then 1 else dt0
  let delta0 : ℝ := Real.logb 2 (m.avg_time_between_blocks : ℝ)
      + Real.logb 2 (m.blocks_per_difficulty : ℝ) - Real.logb 2 (dt : ℝ)
  let mx : ℝ := (m.max_allowed_block_weight_change : ℝ)
  let delta : ℝ := if delta0 > mx then mx else if delta0 < -mx then -mx else delta0
  let nw0 : ℝ := (m.block_weight : ℝ) + delta
  let new_weight : ℝ := if nw0 < (m.min_block_weight : ℝ) then (m.min_block_weight : ℝ) else nw0
  ((dt : ℝ) / (m.blocks_per_difficulty : ℝ), new_weight)

/-- Embedding of `PeerStorage.add_or_merge`.  Modelled from the spec:
`hathor/p2p/peer_storage.py` is not among the repository sources; the spec says
a known peer's record is merged (entrypoints united), an unknown peer's record
is added (sections 4.6 and 4.8). -/
def add_or_merge (storage : List Peer) (p : Peer) : List Peer :=
  if storage.any (fun q => decide (q.id = p.id)) then
    storage.map (fun q =>
      if q.id = p.id then
        { q with entrypoints :=
            q.entrypoints ++ p.entrypoints.filter (fun e => decide (e ∉ q.entrypoints)) }
      else q)
  else storage ++ [p]

/-- Embedding of `HathorManager.connect_to_if_not_connected` (manager.py lines
354-360): no attempt when the peer has no entrypoints or is already connected,
otherwise one dial to a random entrypoint (embedded as index `choice % length`).
Returns the list of dialled entrypoints. -/
def connect_to_if_not_connected (connected : List (List Nat)) (choice : ℕ) (p : Peer) :
    List (List Nat) :=
  if p.entrypoints = [] then []
  else if p.id ∈ connected then []
  else [p.entrypoints.getD (choice % p.entrypoints.length) []]

/-- Embedding of `HathorManager.update_peer` (manager.py lines 336-343): a peer
record carrying the node's own id is ignored; any other record is merged into
`peer_storage` and a connection is attempted if the peer is not connected.
Returns the updated peer storage and the dialled entrypoints. -/
def update_peer (m : HathorManager) (choice : ℕ) (p : Peer) :
    List Peer × List (List Nat) :=
  if p.id = m.my_peer.id then (m.peer_storage, [])
  else (add_or_merge m.peer_storage p, connect_to_if_not_connected m.connected_peers choice p)

/-- The manager state of a freshly started node: the values `__init__` assigns
(manager.py lines 105-111), the three genesis vertices in storage, and the state
`_initialize_components` leaves behind after replaying storage (the genesis
vertices pass through `_add_to_cache`, the genesis block enters the
`latest_blocks` window). -/
def freshManager : HathorManager :=
  { state := NodeState.WAITING_FOR_PEERS,
    tx_storage := genesis_transactions,
    storage_cache := genesis_transactions,
    latest_blocks := [BLOCK_GENESIS],
    blocks_per_difficulty := 5,
    avg_time_between_blocks := 64,
    min_block_weight := 10,
    block_weight := 10,
    max_allowed_block_weight_change := 2,
    tokens_issued_per_block := 10000,
    connected_peers := [],
    peer_storage := [],
    my_peer := { id := [], entrypoints := [] } }

/-- Sanity check of `freshManager`: replaying the genesis storage through
`on_new_tx` from the `INITIALIZING` state, as `_initialize_components` does,
produces exactly the fields recorded in `freshManager`. -/
theorem freshManager_replay :
    (genesis_transactions.foldl
        (on_new_tx (fun _ => true) (fun m => m.block_weight))
        { freshManager with state := NodeState.INITIALIZING,
                            storage_cache := [], latest_blocks := [] })
      = { freshManager with state := NodeState.INITIALIZING } := by decide

/-- Auxiliary: `on_new_tx` never changes the node state. -/
theorem on_new_tx_state (verify : Vertex → Bool) (retarget : HathorManager → ℚ)
    (m : HathorManager) (tx : Vertex) : (on_new_tx verify retarget m tx).state = m.state := by
  unfold on_new_tx
  dsimp only
  split_ifs <;> rfl

/-- Auxiliary: `on_new_tx` never changes the connected peer set. -/
theorem on_new_tx_connected_peers (verify : Vertex → Bool) (retarget : HathorManager → ℚ)
    (m : HathorManager) (tx : Vertex) :
    (on_new_tx verify retarget m tx).connected_peers = m.connected_peers := by
  unfold on_new_tx
  dsimp only
  split_ifs <;> rfl

/-- C5.  A vertex with a parent hash missing from transaction storage is always
rejected: `validate_new_tx` returns `False` (manager.py lines 233-239) and
`on_new_tx` leaves the manager, in particular its transaction storage,
unchanged.  This holds in every node state and for every `verify` function. -/
theorem validate_new_tx_missing_parent_rejects (verify : Vertex → Bool)
    (retarget : HathorManager → ℚ) (m : HathorManager) (tx : Vertex) (p : List Nat)
    (hp : p ∈ tx.parents)
    (hmiss : transaction_exists_by_hash_bytes m.tx_storage p = false) :
    validate_new_tx verify m tx = false ∧ on_new_tx verify retarget m tx = m := by
  have hany : tx.parents.any (fun q => ! transaction_exists_by_hash_bytes m.tx_storage q)
      = true := by
    refine List.any_eq_true.mpr ⟨p, hp, ?_⟩
    simp [hmiss]
  have hval : validate_new_tx verify m tx = false := by
    unfold validate_new_tx
    split_ifs <;> simp_all
  refine ⟨hval, ?_⟩
  unfold on_new_tx
  simp [hval]

/-- Witness for C5: a concrete vertex whose only parent is absent from the
fresh node's storage is rejected and not stored. -/
theorem validate_new_tx_missing_parent_rejects_witness :
    ([9, 9] ∈ ([[9, 9]] : List (List Nat))) ∧
    transaction_exists_by_hash_bytes freshManager.tx_storage [9, 9] = false ∧
    (validate_new_tx (fun _ => true) freshManager
        { hash := [1], parents := [[9, 9]], weight := 10, timestamp := 0, height := 1,
          outputs := [], is_block := false, is_genesis := false } = false ∧
      on_new_tx (fun _ => true) (fun mg => mg.block_weight) freshManager
        { hash := [1], parents := [[9, 9]], weight := 10, timestamp := 0, height := 1,
          outputs := [], is_block := false, is_genesis := false } = freshManager) :=
  ⟨by decide, by decide,
    validate_new_tx_missing_parent_rejects (fun _ => true) (fun mg => mg.block_weight)
      freshManager _ [9, 9] (by decide) (by decide)⟩

/-- C6.  A block whose weight is below the manager's current target
`block_weight` is always rejected by `validate_new_tx` (manager.py lines
247-252), whatever the node state and the `verify` function; equivalently,
every accepted block has weight at least the current target. -/
theorem validate_new_tx_low_weight_rejects (verify : Vertex → Bool) (m : HathorManager)
    (tx : Vertex) (hb : tx.is_block = true) (hw : tx.weight < m.block_weight) :
    validate_new_tx verify m tx = false := by
  unfold validate_new_tx
  split_ifs with h1 h2 h3 h4 h5 <;> try rfl
  exact absurd ⟨hb, hw⟩ h5

/-- Witness for C6: a concrete block of weight 5 is rejected by the fresh node,
whose target block weight is 10. -/
theorem validate_new_tx_low_weight_rejects_witness :
    (({ hash := [1], parents := [], weight := 5, timestamp := 0, height := 1,
        outputs := [], is_block := true, is_genesis := false } : Vertex).is_block = true) ∧
    (({ hash := [1], parents := [], weight := 5, timestamp := 0, height := 1,
        outputs := [], is_block := true, is_genesis := false } : Vertex).weight
        < freshManager.block_weight) ∧
    validate_new_tx (fun _ => true) freshManager
      { hash := [1], parents := [], weight := 5, timestamp := 0, height := 1,
        outputs := [], is_block := true, is_genesis := false } = false :=
  ⟨by decide, by decide,
    validate_new_tx_low_weight_rejects (fun _ => true) freshManager _ (by decide) (by decide)⟩

/-- C7.  `propagate_tx` always integrates the vertex locally through
`on_new_tx`, and it sends the vertex to peers exactly when the node state is
`SYNCED`: in that case to every connected peer, and in every other state to no
peer at all (manager.py lines 174-186). -/
theorem propagate_tx_sends_only_when_synced (verify : Vertex → Bool)
    (retarget : HathorManager → ℚ) (m : HathorManager) (tx : Vertex) :
    (propagate_tx verify retarget m tx).1 = on_new_tx verify retarget m tx ∧
    ∀ q : List Nat, q ∈ (propagate_tx verify retarget m tx).2 ↔
      (m.state = NodeState.SYNCED ∧ q ∈ m.connected_peers) := by
  unfold propagate_tx
  dsimp only
  rw [on_new_tx_state, on_new_tx_connected_peers]
  split_ifs with h
  · exact ⟨rfl, fun q => by simp [h]⟩
  · exact ⟨rfl, fun q => by simp [h]⟩

/-- Auxiliary: after `add_or_merge`, a record with the merged peer's id is
present in the storage. -/
theorem add_or_merge_mem_id (storage : List Peer) (p : Peer) :
    p.id ∈ (add_or_merge storage p).map Peer.id := by
  unfold add_or_merge
  split_ifs with hmem
  · obtain ⟨q, hq, hqid⟩ := List.any_eq_true.mp hmem
    have hqid2 : q.id = p.id := of_decide_eq_true hqid
    simp only [List.map_map, List.mem_map]
    exact ⟨q, hq, by simp [Function.comp, hqid2]⟩
  · simp

/-- C10.  `update_peer` ignores a peer record carrying the node's own peer id:
the peer storage is returned unchanged and no connection is attempted.  For any
other id, the record is added or merged into the peer storage (`add_or_merge`)
and in particular a record with that id is present afterwards; the connection
attempts are exactly those of `connect_to_if_not_connected` (manager.py lines
336-343 and 354-360). -/
theorem update_peer_spec (m : HathorManager) (choice : ℕ) (p : Peer) :
    (p.id = m.my_peer.id → update_peer m choice p = (m.peer_storage, [])) ∧
    (p.id ≠ m.my_peer.id →
      (update_peer m choice p).1 = add_or_merge m.peer_storage p ∧
      p.id ∈ (update_peer m choice p).1.map Peer.id ∧
      (update_peer m choice p).2 = connect_to_if_not_connected m.connected_peers choice p) := by
  constructor
  · intro h
    unfold update_peer
    rw [if_pos h]
  · intro h
    unfold update_peer
    rw [if_neg h]
    exact ⟨rfl, add_or_merge_mem_id m.peer_storage p, rfl⟩

/-- C2 (amended).  On the fresh node, whose storage holds exactly the three
genesis vertices, `generate_mining_block` returns a block whose parents are the
genesis block hash (the only block tip) followed by the two genesis transaction
hashes (the two transaction tips) -- three parents in total -- and whose height
is 2, whatever the wallet address, timestamp and random choice. -/
theorem generate_mining_block_fresh_three_parents (choice : ℕ) (address : List Nat)
    (now : ℤ) :
    (generate_mining_block freshManager (fun _ => false) choice address now).map
        (fun b => (b.parents, b.height))
      = some ([GENESIS_BLOCK_HASH, TX_GENESIS1_HASH, TX_GENESIS2_HASH], 2) := by
  rfl

/-- Counterexample for C2 as stated: the freshly generated mining block does not
have exactly 2 parents (it has 3: one block parent and two transaction
parents). -/
theorem generate_mining_block_fresh_not_two_parents :
    (generate_mining_block freshManager (fun _ => false) 0 [] 0).map
        (fun b => b.parents.length) ≠ some 2 := by decide

/-- A block offered to the fresh node whose outputs total 5000 tokens instead of
the 10000 `tokens_issued_per_block` requires.  Its parents are the three genesis
vertices and its weight meets the target, so every check of `validate_new_tx`
before the token-sum comparison passes. -/
def badSumBlock : Vertex :=
  { hash := [1], parents := [GENESIS_BLOCK_HASH, TX_GENESIS1_HASH, TX_GENESIS2_HASH],
    weight := 10, timestamp := 1539272000, height := 2,
    outputs := [{ value := 5000, script := [] }], is_block := true, is_genesis := false }

/-- C3 (evaluating the code at the failing input).  The source's token-sum check
(manager.py lines 253-259) prints an error message but is missing a
`return False`; consequently `validate_new_tx` accepts `badSumBlock`, whose
output total differs from `tokens_issued_per_block`, and `on_new_tx` saves it
into transaction storage. -/
theorem validate_new_tx_bad_sum_accepted :
    badSumBlock.sum_outputs ≠ freshManager.tokens_issued_per_block ∧
    validate_new_tx (fun _ => true) freshManager badSumBlock = true ∧
    (on_new_tx (fun _ => true) (fun mg => mg.block_weight) freshManager badSumBlock).tx_storage
      = freshManager.tx_storage ++ [badSumBlock] := by decide

/-- C4 (amended).  Outside the `INITIALIZING` state, handing `on_new_tx` a
vertex whose hash is already in transaction storage is a no-op:
`validate_new_tx` rejects the duplicate (manager.py lines 229-231) and the
manager -- in particular its transaction storage -- is left unchanged, for every
`verify` function and every retarget value. -/
theorem on_new_tx_duplicate_noninit_discarded (verify : Vertex → Bool)
    (retarget : HathorManager → ℚ) (m : HathorManager) (tx : Vertex)
    (hstate : m.state ≠ NodeState.INITIALIZING)
    (hex : transaction_exists_by_hash_bytes m.tx_storage tx.hash = true) :
    validate_new_tx verify m tx = false ∧ on_new_tx verify retarget m tx = m := by
  have hval : validate_new_tx verify m tx = false := by
    unfold validate_new_tx
    split_ifs with h1 h2 <;> simp_all
  refine ⟨hval, ?_⟩
  unfold on_new_tx
  simp [hval]

/-- Witness for C4's amended theorem: re-offering the stored genesis block to
the fresh node (state `WAITING_FOR_PEERS`) is rejected and changes nothing. -/
theorem on_new_tx_duplicate_noninit_discarded_witness :
    freshManager.state ≠ NodeState.INITIALIZING ∧
    transaction_exists_by_hash_bytes freshManager.tx_storage BLOCK_GENESIS.hash = true ∧
    (validate_new_tx (fun _ => true) freshManager BLOCK_GENESIS = false ∧
      on_new_tx (fun _ => true) (fun mg => mg.block_weight) freshManager BLOCK_GENESIS
        = freshManager) :=
  ⟨by decide, by decide,
    on_new_tx_duplicate_noninit_discarded (fun _ => true) (fun mg => mg.block_weight)
      freshManager BLOCK_GENESIS (by decide) (by decide)⟩

/-- Counterexample for C4 as stated: in the `INITIALIZING` state the duplicate
check of `validate_new_tx` is skipped (manager.py lines 224-231 only run outside
that state, because `_initialize_components` replays vertices that already come
from storage), so a second application of `on_new_tx` to the already-stored
genesis transaction `TX_GENESIS1` is not discarded: validation succeeds and the
manager changes (the vertex is handed to `_add_to_cache` again). -/
theorem on_new_tx_duplicate_initializing_not_discarded :
    transaction_exists_by_hash_bytes
        ({ freshManager with state := NodeState.INITIALIZING } : HathorManager).tx_storage
        TX_GENESIS1.hash = true ∧
    validate_new_tx (fun _ => true) { freshManager with state := NodeState.INITIALIZING }
        TX_GENESIS1 = true ∧
    on_new_tx (fun _ => true) (fun mg => mg.block_weight)
        { freshManager with state := NodeState.INITIALIZING } TX_GENESIS1
      ≠ { freshManager with state := NodeState.INITIALIZING } := by decide

/-- Auxiliary: the source's `if dt <= 0: dt = 1` fix-up (manager.py lines
314-315) computes `max 1 dt`. -/
theorem ite_nonpos_one (d : ℤ) : (if d ≤ 0 then (1 : ℤ) else d) = max 1 d := by
  rw [max_def]
  split_ifs <;> omega

/-- Auxiliary: the source's two-sided delta clipping (manager.py lines 323-326)
computes `clamp` as `max (-c) (min c x)`. -/
theorem clamp_ite (x c : ℝ) (hc : 0 ≤ c) :
    (if x > c then c else if x < -c then -c else x) = max (-c) (min c x) := by
  split_ifs with h1 h2
  · rw [min_eq_left h1.le, max_eq_right (by linarith)]
  · rw [min_eq_right (by linarith), max_eq_left (by linarith)]
  · rw [min_eq_right (by linarith), max_eq_right (by linarith)]

/-- Auxiliary: the source's weight floor (manager.py lines 330-331) computes a
maximum. -/
theorem floor_ite (x c : ℝ) : (if x < c then c else x) = max c x := by
  rw [max_def]
  split_ifs <;> linarith

/-- C1.  With the `__init__` defaults (window of 5 blocks, 64-second target
spacing, delta clipped at 2, weight floored at 10) and a full window in
`latest_blocks`, `calculate_block_difficulty` returns the new weight
`max(min_block_weight, current_weight + clamp(log2(avg_time_between_blocks) +
log2(blocks_per_difficulty) - log2(dt), -2, 2))` with
`dt = max(1, latest.timestamp - earliest.timestamp)` (manager.py lines
309-334). -/
theorem calculate_block_difficulty_spec (m : HathorManager)
    (hN : m.blocks_per_difficulty = 5)
    (havg : m.avg_time_between_blocks = 64)
    (hmax : m.max_allowed_block_weight_change = 2)
    (hmin : m.min_block_weight = 10)
    (hlen : m.latest_blocks.length = m.blocks_per_difficulty) :
    (calculate_block_difficulty m).2 =
      max 10 ((m.block_weight : ℝ) +
        max (-2) (min 2 (Real.logb 2 64 + Real.logb 2 5 -
          Real.logb 2 ((max 1 ((m.latest_blocks.getLastD default).timestamp -
            (m.latest_blocks.headD default).timestamp) : ℤ) : ℝ)))) := by
  unfold calculate_block_difficulty
  rw [hN, havg, hmax, hmin]
  dsimp only
  rw [ite_nonpos_one]
  rw [clamp_ite _ _ (by norm_num : (0 : ℝ) ≤ ((2 : ℚ) : ℝ))]
  rw [floor_ite]
  norm_num

/-- A full difficulty window: five blocks spaced 32 seconds apart (the spec's
retarget scenario). -/
def diffWindow : List Vertex :=
  [{ BLOCK_GENESIS with timestamp := 0 }, { BLOCK_GENESIS with timestamp := 32 },
   { BLOCK_GENESIS with timestamp := 64 }, { BLOCK_GENESIS with timestamp := 96 },
   { BLOCK_GENESIS with timestamp := 128 }]

/-- The fresh manager carrying the `diffWindow` retarget window. -/
def diffWitnessManager : HathorManager := { freshManager with latest_blocks := diffWindow }

/-- Witness for C1: the retarget formula evaluated on a concrete window of five
blocks spaced 32 seconds apart. -/
theorem calculate_block_difficulty_spec_witness :
    (diffWitnessManager.blocks_per_difficulty = 5 ∧
     diffWitnessManager.avg_time_between_blocks = 64 ∧
     diffWitnessManager.max_allowed_block_weight_change = 2 ∧
     diffWitnessManager.min_block_weight = 10 ∧
     diffWitnessManager.latest_blocks.length = diffWitnessManager.blocks_per_difficulty) ∧
    (calculate_block_difficulty diffWitnessManager).2 =
      max 10 ((diffWitnessManager.block_weight : ℝ) +
        max (-2) (min 2 (Real.logb 2 64 + Real.logb 2 5 -
          Real.logb 2 ((max 1 ((diffWitnessManager.latest_blocks.getLastD default).timestamp -
            (diffWitnessManager.latest_blocks.headD default).timestamp) : ℤ) : ℝ)))) :=
  ⟨⟨by decide, by decide, by decide, by decide, by decide⟩,
    calculate_block_difficulty_spec diffWitnessManager (by decide) (by decide) (by decide)
      (by decide) (by decide)⟩

/-- C8.  When the storage holds exactly one tip transaction `t`,
`get_new_tx_parents` returns the two-element list `[t.hash, p]` where `p` is
the randomly chosen parent of `t`; `p` is indeed one of `t`'s parents and (as
long as `t` is not its own parent) differs from `t.hash`, so two distinct
transaction parents are returned.  With two or more tips the hashes of the
first two tips are returned (manager.py lines 188-199). -/
theorem get_new_tx_parents_spec (storage : List Vertex) (voided : List Nat → Bool)
    (choice : ℕ) (t : Vertex)
    (htip : tip_transactions_all storage voided = [t])
    (hpar : t.parents ≠ []) (hself : t.hash ∉ t.parents) :
    get_new_tx_parents storage voided choice
        = some [t.hash, t.parents.getD (choice % t.parents.length) []] ∧
    t.parents.getD (choice % t.parents.length) [] ∈ t.parents ∧
    t.hash ≠ t.parents.getD (choice % t.parents.length) [] ∧
    ∀ (s2 : List Vertex) (v2 : List Nat → Bool) (c2 : ℕ),
      2 ≤ (tip_transactions_all s2 v2).length →
      get_new_tx_parents s2 v2 c2
        = some (((tip_transactions_all s2 v2).take 2).map Vertex.hash) := by
  have hlen : 0 < t.parents.length := List.length_pos.mpr hpar
  have hidx : choice % t.parents.length < t.parents.length := Nat.mod_lt _ hlen
  have hgetD : t.parents.getD (choice % t.parents.length) [] ∈ t.parents := by
    rw [List.getD_eq_getElem _ _ hidx]
    exact List.getElem_mem hidx
  refine ⟨?_, hgetD, fun h => hself (h ▸ hgetD), ?_⟩
  · unfold get_new_tx_parents get_tip_transactions
    rw [htip]
    simp [hpar]
  · intro s2 v2 c2 h2
    unfold get_new_tx_parents get_tip_transactions
    simp only [List.length_take]
    rw [if_neg (by omega : ¬ min 2 (tip_transactions_all s2 v2).length = 1)]

/-- A transaction that is the unique tip of its two-vertex storage: it confirms
`TX_GENESIS1` and nothing confirms it. -/
def tipWitnessTx : Vertex :=
  { hash := [2], parents := [TX_GENESIS1_HASH], weight := 10, timestamp := 1539272000,
    height := 2, outputs := [], is_block := false, is_genesis := false }

/-- Witness for C8: on a storage whose only tip transaction is `tipWitnessTx`,
the returned parents are its hash followed by its parent `TX_GENESIS1_HASH`. -/
theorem get_new_tx_parents_spec_witness :
    (tip_transactions_all [TX_GENESIS1, tipWitnessTx] (fun _ => false) = [tipWitnessTx] ∧
     tipWitnessTx.parents ≠ [] ∧ tipWitnessTx.hash ∉ tipWitnessTx.parents) ∧
    (get_new_tx_parents [TX_GENESIS1, tipWitnessTx] (fun _ => false) 0
        = some [tipWitnessTx.hash,
            tipWitnessTx.parents.getD (0 % tipWitnessTx.parents.length) []] ∧
      tipWitnessTx.parents.getD (0 % tipWitnessTx.parents.length) [] ∈ tipWitnessTx.parents ∧
      tipWitnessTx.hash ≠ tipWitnessTx.parents.getD (0 % tipWitnessTx.parents.length) [] ∧
      ∀ (s2 : List Vertex) (v2 : List Nat → Bool) (c2 : ℕ),
        2 ≤ (tip_transactions_all s2 v2).length →
        get_new_tx_parents s2 v2 c2
          = some (((tip_transactions_all s2 v2).take 2).map Vertex.hash)) :=
  ⟨⟨by decide, by decide, by decide⟩,
    get_new_tx_parents_spec [TX_GENESIS1, tipWitnessTx] (fun _ => false) 0 tipWitnessTx
      (by decide) (by decide) (by decide)⟩

/-- Embedding of `bytes.hex()`: each byte becomes two hex digits, kept as nibble
values (the digit characters are in bijection with `0..15`). -/
def toHex : List ℕ → List ℕ
  | [] => []
  | x :: t => x / 16 :: x % 16 :: toHex t

/-- Embedding of `bytes.fromhex`: pairs of hex digits back to bytes; `none`
embeds the `ValueError` on an odd-length or non-hex string. -/
def fromHex : List ℕ → Option (List ℕ)
  | [] => some []
  | d1 :: d2 :: rest =>
      if d1 < 16 ∧ d2 < 16 then (fromHex rest).map (fun bs => (16 * d1 + d2) :: bs)
      else none
  | [_] => none

/-- A byte string whose entries are actual byte values. -/
def ValidBytes (b : List ℕ) : Bool := b.all (fun x => decide (x < 256))

/-- Embedding of `TransactionMetadata` (transaction_metadata.py lines 7-61).
Python sets are embedded as duplicate-free lists in iteration order and the
`spent_outputs` dict as an association list in insertion order; peer ids in
`received_by` are integers. -/
structure TransactionMetadata where
  hash : Option (List ℕ)
  spent_outputs : List (ℕ × List (List ℕ))
  conflict_with : List (List ℕ)
  voided_by : List (List ℕ)
  received_by : List ℤ
  children : List (List ℕ)
  twins : List (List ℕ)
  accumulated_weight : ℚ
  score : ℚ
  first_block : Option (List ℕ)
deriving DecidableEq, Repr

/-- The JSON value `to_json` produces for the `hash` key: the Python
expression `self.hash and self.hash.hex()` (transaction_metadata.py line 74)
yields `None` for a missing hash, the *bytes* value `b''` itself for an empty
hash (falsy but not `None`), and a hex string otherwise. -/
inductive JHashField where
  | null
  | emptyBytes
  | hexStr (s : List ℕ)
deriving DecidableEq, Repr

/-- The dictionary `TransactionMetadata.to_json` builds (transaction_metadata.py
lines 72-89): hex strings for hashes, `spent_outputs` flattened to
`[index, [hex, ...]]` pairs, numbers kept as they are, `first_block` either a
hex string (empty for empty bytes, since line 85 tests `is not None`) or null. -/
structure MetaJson where
  hash : JHashField
  spent_outputs : List (ℕ × List (List ℕ))
  received_by : List ℤ
  children : List (List ℕ)
  conflict_with : List (List ℕ)
  voided_by : List (List ℕ)
  twins : List (List ℕ)
  accumulated_weight : ℚ
  score : ℚ
  first_block : Option (List ℕ)
deriving DecidableEq, Repr

/-- Embedding of `TransactionMetadata.to_json` (transaction_metadata.py lines
72-89). -/
def to_json (m : TransactionMetadata) : MetaJson :=
  { hash := match m.hash with
      | none => JHashField.null
      | some [] => JHashField.emptyBytes
      | some h => JHashField.hexStr (toHex h),
    spent_outputs := m.spent_outputs.map (fun p => (p.1, p.2.map toHex)),
    received_by := m.received_by,
    children := m.children.map toHex,
    conflict_with := m.conflict_with.map toHex,
    voided_by := m.voided_by.map toHex,
    twins := m.twins.map toHex,
    accumulated_weight := m.accumulated_weight,
    score := m.score,
    first_block := m.first_block.map toHex }

/-- Embedding of `set.add`: append the element if it is not yet present. -/
def set_insert [DecidableEq α] (s : List α) (x : α) : List α :=
  if x ∈ s then s else s ++ [x]

/-- Embedding of the `set(...)` constructor: insert the elements in order. -/
def set_of_list [DecidableEq α] (l : List α) : List α :=
  l.foldl set_insert []

/-- Embedding of `meta.spent_outputs[idx].add(h)` on the `defaultdict(set)`
(transaction_metadata.py line 97): update the entry with key `i` when present,
create a fresh singleton entry otherwise. -/
def add_spent (so : List (ℕ × List (List ℕ))) (i : ℕ) (b : List ℕ) :
    List (ℕ × List (List ℕ)) :=
  if so.any (fun p => decide (p.1 = i)) then
    so.map (fun p => if p.1 = i then (p.1, set_insert p.2 b) else p)
  else so ++ [(i, [b])]

/-- Embedding of `TransactionMetadata.create_from_json` (transaction_metadata.py
lines 91-123).  `none` embeds an exception: `bytes.fromhex(data['hash'])` raises
a `TypeError` when the value is `None` or the bytes `b''` (line 94), and any
`fromhex` call raises on an invalid hex string.  A `spent_outputs` entry with an
empty hash list creates no key (the inner loop of lines 95-97 never touches the
defaultdict), and a falsy `first_block` value (null or the empty string,
line 120) leaves `first_block` as `None`.  The `'conflict_with' in data` style
guards (lines 101-114) always succeed on a dictionary produced by `to_json`,
which is the shape `MetaJson` models. -/
def create_from_json (d : MetaJson) : Option TransactionMetadata := do
  let h ← match d.hash with
    | JHashField.hexStr s => fromHex s
    | _ => none
  let so ← d.spent_outputs.foldlM (fun so p => do
      let bs ← p.2.mapM fromHex
      pure (bs.foldl (fun acc b => add_spent acc p.1 b) so)) []
  let rb := set_of_list d.received_by
  let ch ← (d.children.mapM fromHex).map set_of_list
  let cw ← (d.conflict_with.mapM fromHex).map set_of_list
  let vb ← (d.voided_by.mapM fromHex).map set_of_list
  let tw ← (d.twins.mapM fromHex).map set_of_list
  let fb ← match d.first_block with
    | none => some none
    | some [] => some none
    | some s => (fromHex s).map some
  pure { hash := some h, spent_outputs := so, conflict_with := cw, voided_by := vb,
         received_by := rb, children := ch, twins := tw,
         accumulated_weight := d.accumulated_weight, score := d.score, first_block := fb }

/-- Embedding of `TransactionMetadata.clone` (transaction_metadata.py lines
172-179): the JSON round trip; `none` embeds an exception escaping it. -/
def TransactionMetadata.clone (m : TransactionMetadata) : Option TransactionMetadata :=
  create_from_json (to_json m)

/-- Python set equality on the list model: the same elements on both sides. -/
def set_eq [DecidableEq α] (a b : List α) : Bool :=
  a.all (fun x => decide (x ∈ b)) && b.all (fun x => decide (x ∈ a))

/-- Lookup in the `spent_outputs` association list. -/
def lookup_spent (so : List (ℕ × List (List ℕ))) (i : ℕ) : Option (List (List ℕ)) :=
  (so.find? (fun p => decide (p.1 = i))).map Prod.snd

/-- Python dict equality on the association-list model of `spent_outputs`: the
same keys, and per key the same set of spender hashes. -/
def dict_eq (a b : List (ℕ × List (List ℕ))) : Bool :=
  a.all (fun p => match lookup_spent b p.1 with
    | some s => set_eq p.2 s
    | none => false) &&
  b.all (fun p => match lookup_spent a p.1 with
    | some s => set_eq p.2 s
    | none => false)

/-- Embedding of `TransactionMetadata.__eq__` (transaction_metadata.py lines
63-70): field-by-field comparison of `hash`, `spent_outputs`, `conflict_with`,
`voided_by`, `received_by`, `children`, `accumulated_weight`, `twins`, `score`
and `first_block`, with Python's extensional set and dict equality. -/
def metaEq (a b : TransactionMetadata) : Bool :=
  decide (a.hash = b.hash) && dict_eq a.spent_outputs b.spent_outputs &&
  set_eq a.conflict_with b.conflict_with && set_eq a.voided_by b.voided_by &&
  set_eq a.received_by b.received_by && set_eq a.children b.children &&
  decide (a.accumulated_weight = b.accumulated_weight) && set_eq a.twins b.twins &&
  decide (a.score = b.score) && decide (a.first_block = b.first_block)

/-- Model well-formedness of a `TransactionMetadata`, the invariants every value
of the Python class satisfies by construction: set-modelling lists are
duplicate-free, dict keys are distinct, and all stored byte strings hold byte
values. -/
def metaWF (m : TransactionMetadata) : Bool :=
  (match m.hash with | none => true | some h => ValidBytes h) &&
  decide (m.spent_outputs.map Prod.fst).Nodup &&
  m.spent_outputs.all (fun p => decide p.2.Nodup && p.2.all ValidBytes) &&
  (decide m.conflict_with.Nodup && m.conflict_with.all ValidBytes) &&
  (decide m.voided_by.Nodup && m.voided_by.all ValidBytes) &&
  decide m.received_by.Nodup &&
  (decide m.children.Nodup && m.children.all ValidBytes) &&
  (decide m.twins.Nodup && m.twins.all ValidBytes) &&
  (match m.first_block with | none => true | some h => ValidBytes h)

/-- Auxiliary: `ValidBytes` unfolded to a membership statement. -/
theorem validBytes_iff (b : List ℕ) : ValidBytes b = true ↔ ∀ x ∈ b, x < 256 := by
  simp [ValidBytes]

/-- Auxiliary: decoding inverts encoding on genuine byte strings. -/
theorem fromHex_toHex (b : List ℕ) (hb : ∀ x ∈ b, x < 256) :
    fromHex (toHex b) = some b := by
  induction b with
  | nil => rfl
  | cons x t ih =>
      have hx : x < 256 := hb x (List.mem_cons_self x t)
      have h1 : x / 16 < 16 := by omega
      have h2 : x % 16 < 16 := by omega
      have ht := ih (fun y hy => hb y (List.mem_cons_of_mem _ hy))
      show fromHex (x / 16 :: x % 16 :: toHex t) = some (x :: t)
      rw [fromHex, if_pos ⟨h1, h2⟩, ht]
      simp [Nat.div_add_mod]

/-- Auxiliary: `toHex` sends a nonempty byte string to a nonempty hex string. -/
theorem toHex_ne_nil (b : List ℕ) (h : b ≠ []) : toHex b ≠ [] := by
  cases b with
  | nil => exact absurd rfl h
  | cons x t => simp [toHex]

/-- Auxiliary: decoding a list of encoded byte strings recovers the list. -/
theorem mapM_fromHex_toHex (l : List (List ℕ)) (hl : ∀ b ∈ l, ∀ x ∈ b, x < 256) :
    (l.map toHex).mapM fromHex = some l := by
  induction l with
  | nil => rfl
  | cons b t ih =>
      simp only [List.map_cons, List.mapM_cons]
      rw [fromHex_toHex b (hl b (List.mem_cons_self b t)),
        ih (fun c hc x hx => hl c (List.mem_cons_of_mem _ hc) x hx)]
      rfl

/-- Auxiliary: inserting duplicate-free elements into a set in order appends
them. -/
theorem foldl_set_insert [DecidableEq α] (l acc : List α) (h : (acc ++ l).Nodup) :
    l.foldl set_insert acc = acc ++ l := by
  induction l generalizing acc with
  | nil => simp
  | cons x t ih =>
      have hnd := h
      rw [List.nodup_append] at hnd
      have hx : x ∉ acc := fun hmem => hnd.2.2 hmem (List.mem_cons_self x t)
      have hins : set_insert acc x = acc ++ [x] := by simp [set_insert, hx]
      have h2 : ((acc ++ [x]) ++ t).Nodup := by simpa [List.append_assoc] using h
      rw [List.foldl_cons, hins, ih _ h2]
      simp

/-- Auxiliary: the `set(...)` constructor is the identity on duplicate-free
iteration orders. -/
theorem set_of_list_nodup [DecidableEq α] (l : List α) (h : l.Nodup) :
    set_of_list l = l := by
  have := foldl_set_insert l [] (by simpa using h)
  simpa [set_of_list] using this

/-- Auxiliary: adding a spender under a key absent from the map creates a fresh
singleton entry at the end. -/
theorem add_spent_fresh (acc : List (ℕ × List (List ℕ))) (i : ℕ) (b : List ℕ)
    (hf : ∀ q ∈ acc, q.1 ≠ i) : add_spent acc i b = acc ++ [(i, [b])] := by
  have hcond : ¬ (acc.any (fun p => decide (p.1 = i)) = true) := by
    simp only [List.any_eq_true, decide_eq_true_eq, not_exists]
    intro q
    intro hcontra
    exact hf q hcontra.1 hcontra.2
  unfold add_spent
  rw [if_neg hcond]

/-- Auxiliary: adding a spender under the key of the last entry extends that
entry's set and leaves the earlier entries alone (their keys differ). -/
theorem add_spent_last (acc : List (ℕ × List (List ℕ))) (i : ℕ) (s : List (List ℕ))
    (b : List ℕ) (hf : ∀ q ∈ acc, q.1 ≠ i) :
    add_spent (acc ++ [(i, s)]) i b = acc ++ [(i, set_insert s b)] := by
  have hcond : (acc ++ [(i, s)]).any (fun p => decide (p.1 = i)) = true := by simp
  unfold add_spent
  rw [if_pos hcond, List.map_append]
  congr 1
  · have hmap : ∀ p ∈ acc,
        (if p.1 = i then (p.1, set_insert p.2 b) else p) = id p :=
      fun p hp => if_neg (hf p hp)
    rw [List.map_congr_left hmap, List.map_id]
  · simp

/-- Auxiliary: folding further spender additions under the last entry's key
appends them to that entry's set. -/
theorem fold_add_spent (acc : List (ℕ × List (List ℕ))) (i : ℕ) (s bs : List (List ℕ))
    (hf : ∀ q ∈ acc, q.1 ≠ i) (hnd : (s ++ bs).Nodup) :
    bs.foldl (fun a b => add_spent a i b) (acc ++ [(i, s)]) = acc ++ [(i, s ++ bs)] := by
  induction bs generalizing s with
  | nil => simp
  | cons b t ih =>
      have hnd2 := hnd
      rw [List.nodup_append] at hnd2
      have hb : b ∉ s := fun hmem => hnd2.2.2 hmem (List.mem_cons_self b t)
      have hins : set_insert s b = s ++ [b] := by simp [set_insert, hb]
      have h2 : ((s ++ [b]) ++ t).Nodup := by simpa [List.append_assoc] using hnd
      rw [List.foldl_cons, add_spent_last acc i s b hf, hins, ih _ h2]
      simp

/-- Auxiliary: rebuilding `spent_outputs` from its JSON form recovers the map,
entry by entry, provided keys are distinct and every spender set is nonempty
and duplicate-free. -/
theorem spent_rebuild (so : List (ℕ × List (List ℕ))) (acc : List (ℕ × List (List ℕ)))
    (hkeys : ((acc ++ so).map Prod.fst).Nodup)
    (hsets : ∀ p ∈ so, p.2 ≠ [] ∧ p.2.Nodup ∧ ∀ b ∈ p.2, ∀ x ∈ b, x < 256) :
    (so.map (fun p => (p.1, p.2.map toHex))).foldlM (fun so2 p => do
        let bs ← p.2.mapM fromHex
        pure (bs.foldl (fun acc2 b => add_spent acc2 p.1 b) so2)) acc
      = some (acc ++ so) := by
  induction so generalizing acc with
  | nil => simp
  | cons p t ih =>
      obtain ⟨hne, hnd, hval⟩ := hsets p (List.mem_cons_self p t)
      have hf : ∀ q ∈ acc, q.1 ≠ p.1 := by
        intro q hq heq
        rw [List.map_append, List.nodup_append] at hkeys
        exact hkeys.2.2 (List.mem_map_of_mem Prod.fst hq)
          (by simpa [heq] using List.mem_cons_self p.1 (t.map Prod.fst))
      simp only [List.map_cons, List.foldlM_cons]
      rw [mapM_fromHex_toHex p.2 hval]
      rcases hp2 : p.2 with _ | ⟨b0, bs⟩
      · exact absurd hp2 hne
      · have hfold : (b0 :: bs).foldl (fun a b => add_spent a p.1 b) acc
            = acc ++ [(p.1, p.2)] := by
          rw [List.foldl_cons, add_spent_fresh acc p.1 b0 hf,
            fold_add_spent acc p.1 [b0] bs hf (by simpa [hp2] using hnd)]
          simp [hp2]
        have hkeys2 : (((acc ++ [p]) ++ t).map Prod.fst).Nodup := by
          simpa [List.append_assoc] using hkeys
        have hsets2 : ∀ q ∈ t, q.2 ≠ [] ∧ q.2.Nodup ∧ ∀ b ∈ q.2, ∀ x ∈ b, x < 256 :=
          fun q hq => hsets q (List.mem_cons_of_mem _ hq)
        rw [hp2] at hfold
        have hstep := ih (acc ++ [p]) hkeys2 hsets2
        simp only [Option.pure_def, Option.bind_eq_bind', Option.some_bind'] at hstep ⊢
        rw [hfold, ← hp2, Prod.mk.eta, hstep]
        simp

/-- Auxiliary: Python set equality is reflexive. -/
theorem set_eq_refl [DecidableEq α] (l : List α) : set_eq l l = true := by
  simp [set_eq, List.all_eq_true]

/-- Auxiliary: with distinct keys, looking an entry's own key up finds that
entry. -/
theorem lookup_spent_self (so : List (ℕ × List (List ℕ)))
    (hnd : (so.map Prod.fst).Nodup) (p : ℕ × List (List ℕ)) (hp : p ∈ so) :
    lookup_spent so p.1 = some p.2 := by
  induction so with
  | nil => cases hp
  | cons q t ih =>
      rcases List.mem_cons.mp hp with rfl | hp2
      · unfold lookup_spent
        rw [List.find?_cons_of_pos _ (by simp)]
        rfl
      · have hne : ¬ (q.1 = p.1) := by
          rw [List.map_cons, List.nodup_cons] at hnd
          intro he
          exact hnd.1 (he ▸ List.mem_map_of_mem Prod.fst hp2)
        have hskip : lookup_spent (q :: t) p.1 = lookup_spent t p.1 := by
          unfold lookup_spent
          rw [List.find?_cons_of_neg _ (by simpa using hne)]
        rw [hskip]
        refine ih ?_ hp2
        rw [List.map_cons, List.nodup_cons] at hnd
        exact hnd.2

/-- Auxiliary: Python dict equality is reflexive on maps with distinct keys. -/
theorem dict_eq_refl (so : List (ℕ × List (List ℕ))) (hnd : (so.map Prod.fst).Nodup) :
    dict_eq so so = true := by
  have hall : so.all (fun p => match lookup_spent so p.1 with
      | some s => set_eq p.2 s
      | none => false) = true := by
    rw [List.all_eq_true]
    intro p hp
    rw [lookup_spent_self so hnd p hp]
    exact set_eq_refl p.2
  simp [dict_eq, hall]

/-- Auxiliary: the embedded `__eq__` is reflexive (the Python comparison of a
metadata with itself succeeds) once the dict keys are distinct. -/
theorem metaEq_refl (m : TransactionMetadata)
    (hnd : (m.spent_outputs.map Prod.fst).Nodup) : metaEq m m = true := by
  simp [metaEq, set_eq_refl, dict_eq_refl m.spent_outputs hnd]

/-- C9 (amended).  For every well-formed `TransactionMetadata` whose hash is a
nonempty byte string, whose `spent_outputs` map contains no empty spender set
and whose `first_block` is not the empty byte string, the JSON round trip
`create_from_json(to_json(m))` -- which is exactly `m.clone()` -- rebuilds `m`
itself, and the rebuilt metadata is equal to `m` under the embedded `__eq__`.
(The rebuilt value is constructed field by field from the JSON encoding, so the
Python clone shares no mutable state with the original.) -/
theorem metadata_roundtrip_eq (m : TransactionMetadata) (h0 : List ℕ)
    (hwf : metaWF m = true) (hhash : m.hash = some h0) (hne : h0 ≠ [])
    (hspent : ∀ p ∈ m.spent_outputs, p.2 ≠ [])
    (hfb : m.first_block ≠ some []) :
    m.clone = some m ∧ metaEq m m = true := by
  obtain ⟨mh, mso, mcw, mvb, mrb, mch, mtw, maw, msc, mfb⟩ := m
  simp only at hhash hspent hfb
  subst hhash
  rcases h0 with _ | ⟨a, t⟩
  · exact absurd rfl hne
  simp only [metaWF, ValidBytes, Bool.and_eq_true, decide_eq_true_eq,
    List.all_eq_true] at hwf
  obtain ⟨⟨⟨⟨⟨⟨⟨⟨hhv, hsknd⟩, hsets⟩, hcw⟩, hvb⟩, hrb⟩, hch⟩, htw⟩, hfbv⟩ := hwf
  refine ⟨?_, metaEq_refl _ hsknd⟩
  unfold TransactionMetadata.clone create_from_json to_json
  simp only
  rw [fromHex_toHex (a :: t) hhv]
  have hso := spent_rebuild mso [] (by simpa using hsknd)
    (fun p hp => ⟨hspent p hp, (hsets p hp).1, fun b hb => (hsets p hp).2 b hb⟩)
  simp only [List.nil_append] at hso
  rw [hso]
  rw [mapM_fromHex_toHex mch (fun b hb => hch.2 b hb),
    mapM_fromHex_toHex mcw (fun b hb => hcw.2 b hb),
    mapM_fromHex_toHex mvb (fun b hb => hvb.2 b hb),
    mapM_fromHex_toHex mtw (fun b hb => htw.2 b hb)]
  simp only [Option.pure_def, Option.bind_eq_bind', Option.some_bind', Option.map_some,
    Option.map_some']
  rw [set_of_list_nodup mrb hrb, set_of_list_nodup mch hch.1, set_of_list_nodup mcw hcw.1,
    set_of_list_nodup mvb hvb.1, set_of_list_nodup mtw htw.1]
  rcases mfb with _ | fb0
  · rfl
  · have hfb0 : fb0 ≠ [] := fun he => hfb (by rw [he])
    rcases fb0 with _ | ⟨c, u⟩
    · exact absurd rfl hfb0
    have hfbv2 : ∀ x ∈ c :: u, x < 256 := by
      simpa [List.all_eq_true] using hfbv
    have h2 : fromHex (c / 16 :: c % 16 :: toHex u) = some (c :: u) :=
      fromHex_toHex (c :: u) hfbv2
    dsimp only [Option.map, toHex]
    rw [h2]
    rfl

/-- A representative well-formed metadata with a nonempty hash, nonempty spender
sets and a nonempty `first_block`. -/
def metaGood : TransactionMetadata :=
  { hash := some [0, 255], spent_outputs := [(0, [[1], [2]]), (3, [[4]])],
    conflict_with := [[3]], voided_by := [], received_by := [5, 6],
    children := [[1], [2]], twins := [], accumulated_weight := 2, score := 3,
    first_block := some [4] }

/-- Witness for C9's amended theorem: the round trip rebuilds `metaGood` and the
result is `__eq__`-equal to it. -/
theorem metadata_roundtrip_eq_witness :
    (metaWF metaGood = true ∧ metaGood.hash = some [0, 255] ∧ ([0, 255] : List ℕ) ≠ [] ∧
      (∀ p ∈ metaGood.spent_outputs, p.2 ≠ []) ∧ metaGood.first_block ≠ some []) ∧
    (metaGood.clone = some metaGood ∧ metaEq metaGood metaGood = true) :=
  ⟨⟨by decide, by decide, by decide, by decide, by decide⟩,
    metadata_roundtrip_eq metaGood [0, 255] (by decide) (by decide) (by decide)
      (by decide) (by decide)⟩

/-- A metadata meeting the claim's hypotheses (hash not `None`, no empty spender
set) whose `first_block` is the empty byte string: `to_json` writes it as the
empty hex string (line 86), which `create_from_json` treats as falsy (line 120),
so the round trip silently turns it into `None`. -/
def metaBad : TransactionMetadata :=
  { hash := some [0], spent_outputs := [], conflict_with := [], voided_by := [],
    received_by := [], children := [], twins := [], accumulated_weight := 0, score := 0,
    first_block := some [] }

/-- A metadata meeting the claim's hypotheses whose hash is the empty byte
string: `self.hash and self.hash.hex()` (line 74) stores the falsy bytes `b''`
themselves in the JSON, and `bytes.fromhex(b'')` raises a `TypeError`
(line 94). -/
def metaBad2 : TransactionMetadata :=
  { hash := some [], spent_outputs := [], conflict_with := [], voided_by := [],
    received_by := [], children := [], twins := [], accumulated_weight := 0, score := 0,
    first_block := none }

/-- Counterexample for C9 as stated: both `metaBad` and `metaBad2` have a
non-`None` hash and no empty spender set, yet the round trip of `metaBad`
yields a metadata that is not `__eq__`-equal to it (its `first_block` became
`None`), and the round trip of `metaBad2` raises instead of yielding any
metadata. -/
theorem metadata_roundtrip_counterexample :
    metaBad.hash ≠ none ∧ (∀ p ∈ metaBad.spent_outputs, p.2 ≠ []) ∧
    (metaBad.clone).map (fun m2 => metaEq m2 metaBad) = some false ∧
    metaBad2.hash ≠ none ∧ (∀ p ∈ metaBad2.spent_outputs, p.2 ≠ []) ∧
    metaBad2.clone = none := by decide
